import Mathlib

/-!
Verification development for the `assert-no-inline-lint-disables` scanner.

Characters are modelled as Unicode code points (`Nat`), lines and texts as
`List Nat`.  The regular expressions of `scanner.py` are embedded as small
token lists (`Tok`): each source pattern is a sequence of case-insensitive
literals, whitespace gaps (`\s*` / `\s+`) and a negative lookahead
(`(?!-)` resp. `(?!END)`).  Since in every source pattern the token that
follows a whitespace gap is a literal beginning with a non-whitespace
character, greedy whitespace consumption is equivalent to the regex
semantics, and `re.search` is the existence of a matching suffix.
-/

namespace ANILD

/-- Texts and lines: lists of Unicode code points. -/
abbrev S := List Nat

/-- Code points of a string literal (used to write down concrete texts). -/
def str (s : String) : S := s.toList.map Char.toNat

/-- ASCII lower-casing of one code point (model of `re.IGNORECASE` folding). -/
def lcN (c : Nat) : Nat := if 65 ≤ c ∧ c ≤ 90 then c + 32 else c

/-- ASCII upper-casing of one code point. -/
def ucN (c : Nat) : Nat := if 97 ≤ c ∧ c ≤ 122 then c - 32 else c

/-- Whitespace class of Python's `\s` (ASCII part). -/
def wsN (c : Nat) : Bool :=
  c = 32 || c = 9 || c = 10 || c = 13 || c = 11 || c = 12

/-- One token of an embedded regular expression. -/
inductive Tok where
  | lit : S → Tok
  | wsStar : Tok
  | wsPlus : Tok
  | notLit : S → Tok
deriving DecidableEq

/-- Match a case-insensitive literal at the head of the input, returning the
rest of the input on success. -/
def matchLit : S → S → Option S
  | [], s => some s
  | _ :: _, [] => none
  | p :: ps, c :: cs => if lcN c = lcN p then matchLit ps cs else none

/-- Whether the literal `p` matches case-insensitively at the head of `s`. -/
def isPrefCI (p s : S) : Bool := (matchLit p s).isSome

/-- Drop the maximal run of leading whitespace. -/
def dropWs : S → S
  | [] => []
  | c :: r => if wsN c then dropWs r else c :: r

/-- Match a token sequence at the head of the input. -/
def matchToks : List Tok → S → Bool
  | [], _ => true
  | Tok.lit l :: ts, s =>
    match matchLit l s with
    | some r => matchToks ts r
    | none => false
  | Tok.wsStar :: ts, s => matchToks ts (dropWs s)
  | Tok.wsPlus :: ts, s =>
    match s with
    | [] => false
    | c :: r => wsN c && matchToks ts (dropWs r)
  | Tok.notLit l :: ts, s => !isPrefCI l s && matchToks ts s

/-- `re.search`: the pattern matches at some suffix of the input. -/
def reSearch (p : List Tok) : S → Bool
  | [] => matchToks p []
  | c :: r => matchToks p (c :: r) || reSearch p r

/-! ### The directive pattern registry of `scanner.py` -/

/-- `yamllint\s+disable-line` -/
def yamLinePat : List Tok := [Tok.lit (str "yamllint"), Tok.wsPlus, Tok.lit (str "disable-line")]

/-- `yamllint\s+disable-file` -/
def yamFilePat : List Tok := [Tok.lit (str "yamllint"), Tok.wsPlus, Tok.lit (str "disable-file")]

/-- `yamllint\s+disable(?!-)` -/
def yamBarePat : List Tok :=
  [Tok.lit (str "yamllint"), Tok.wsPlus, Tok.lit (str "disable"), Tok.notLit (str "-")]

/-- `pylint:\s*disable-next` -/
def pylNextPat : List Tok := [Tok.lit (str "pylint:"), Tok.wsStar, Tok.lit (str "disable-next")]

/-- `pylint:\s*disable-line` -/
def pylLinePat : List Tok := [Tok.lit (str "pylint:"), Tok.wsStar, Tok.lit (str "disable-line")]

/-- `pylint:\s*skip-file` -/
def pylSkipPat : List Tok := [Tok.lit (str "pylint:"), Tok.wsStar, Tok.lit (str "skip-file")]

/-- `pylint:\s*disable(?!-)` -/
def pylBarePat : List Tok :=
  [Tok.lit (str "pylint:"), Tok.wsStar, Tok.lit (str "disable"), Tok.notLit (str "-")]

/-- `type:\s*ignore` -/
def mypyTiPat : List Tok := [Tok.lit (str "type:"), Tok.wsStar, Tok.lit (str "ignore")]

/-- `mypy:\s*ignore-errors` -/
def mypyIePat : List Tok := [Tok.lit (str "mypy:"), Tok.wsStar, Tok.lit (str "ignore-errors")]

/-- `YAMLLINT_PATTERNS` of `scanner.py`. -/
def YAMLLINT_PATTERNS : List (List Tok × String) :=
  [(yamLinePat, "yamllint disable-line"),
   (yamFilePat, "yamllint disable-file"),
   (yamBarePat, "yamllint disable")]

/-- `PYLINT_PATTERNS` of `scanner.py`. -/
def PYLINT_PATTERNS : List (List Tok × String) :=
  [(pylNextPat, "pylint: disable-next"),
   (pylLinePat, "pylint: disable-line"),
   (pylSkipPat, "pylint: skip-file"),
   (pylBarePat, "pylint: disable")]

/-- `MYPY_PATTERNS` of `scanner.py`. -/
def MYPY_PATTERNS : List (List Tok × String) :=
  [(mypyTiPat, "type: ignore"),
   (mypyIePat, "mypy: ignore-errors")]

/-- `ALL_PATTERNS` of `scanner.py`. -/
def ALL_PATTERNS : List (String × List (List Tok × String)) :=
  [("yamllint", YAMLLINT_PATTERNS),
   ("pylint", PYLINT_PATTERNS),
   ("mypy", MYPY_PATTERNS)]

/-- `scan_line` of `scanner.py`: for each tool, the first matching pattern in
priority order yields one `(tool, directive)` entry. -/
def scan_line (line : S) : List (String × String) :=
  ALL_PATTERNS.filterMap fun tp =>
    (tp.2.find? fun pd => reSearch pd.1 line).map fun pd => (tp.1, pd.2)

/-- `Finding` of `scanner.py`. -/
structure Finding where
  path : String
  line_number : Nat
  tool : String
  directive : String
deriving DecidableEq, Repr

/-- Split a text into lines at `\n`, `\r\n` and `\r`, as Python
`str.splitlines` does on its common line boundaries; a trailing boundary
produces no extra empty line. -/
def splitlinesGo (cur : S) : S → List S
  | [] => if cur = [] then [] else [cur.reverse]
  | c :: rest =>
    if c = 10 then cur.reverse :: splitlinesGo [] rest
    else if c = 13 then
      match rest with
      | c2 :: r2 =>
        if c2 = 10 then cur.reverse :: splitlinesGo [] r2
        else cur.reverse :: splitlinesGo [] (c2 :: r2)
      | [] => cur.reverse :: splitlinesGo [] []
    else splitlinesGo (c :: cur) rest

/-- Split a text into lines (see `splitlinesGo`). -/
def splitlines (s : S) : List S := splitlinesGo [] s

/-- `scan_file` of `scanner.py`: scan each line, reporting 1-based line
numbers. -/
def scan_file (path : String) (content : S) : List Finding :=
  ((splitlines content).enum).flatMap fun il =>
    (scan_line il.2).map fun td =>
      { path := path, line_number := il.1 + 1, tool := td.1, directive := td.2 }

/-! ### The comment-and-literal-aware scanner

`cli.py` calls `parse_linters` and a four-argument
`scan_file(path, content, linters, allow_patterns)`, and the repository's
integration tests exercise a `scan_line(line, tools, c_style_comments)`
that is aware of comments, string/char literals and the C-family tools
(`clang-tidy`, `clang-format`, `clang-diagnostic`).  That scanner version
is not part of the sources at hand; it is modelled below from the spec
(lexical segmenter §4.1, registry §4.2, line matcher §4.3, file scanner
§4.4), with the repository's tests fixing the points the spec leaves
open (the `#pragma` directive is matched against the code text of the
line, since it is not a comment). -/

/-- Segmenter mode (spec §4.1): line-oriented or C-family. -/
inductive Mode where
  | lineOriented : Mode
  | cFamily : Mode

/-- State of the C-family character scan (spec §4.1): code, block comment,
string literal, char literal.  Line comments need no state: they absorb the
rest of the line. -/
inductive CSt where
  | code : CSt
  | blk : CSt
  | instr : CSt
  | inchr : CSt

/-- Modelled from the spec: the C-family lexical segmenter (§4.1), a
character-by-character finite-state scan.  Returns the concatenated code
text, the concatenated comment text (spans separated by a boundary space),
and whether the line ends inside a block comment.  `//` starts a line
comment, `/*`..`*/` a block comment; inside string/char literals a
backslash escapes the next character and an unterminated literal closes
implicitly at line end.  Elided spans leave a boundary space in the code
text. -/
def segCGo : CSt → S → S × S × Bool
  | CSt.code, [] => ([], [], false)
  | CSt.code, c :: rest =>
    if c = 47 then
      match rest with
      | [] => ([47], [], false)
      | c2 :: r2 =>
        if c2 = 47 then ([], r2, false)
        else if c2 = 42 then segCGo CSt.blk r2
        else
          let r := segCGo CSt.code (c2 :: r2)
          (47 :: r.1, r.2.1, r.2.2)
    else if c = 34 then segCGo CSt.instr rest
    else if c = 39 then segCGo CSt.inchr rest
    else
      let r := segCGo CSt.code rest
      (c :: r.1, r.2.1, r.2.2)
  | CSt.blk, [] => ([], [], true)
  | CSt.blk, c :: rest =>
    if c = 42 then
      match rest with
      | [] => ([], [42], true)
      | c2 :: r2 =>
        if c2 = 47 then
          let r := segCGo CSt.code r2
          (32 :: r.1, 32 :: r.2.1, r.2.2)
        else
          let r := segCGo CSt.blk (c2 :: r2)
          (r.1, 42 :: r.2.1, r.2.2)
    else
      let r := segCGo CSt.blk rest
      (r.1, c :: r.2.1, r.2.2)
  | CSt.instr, [] => ([], [], false)
  | CSt.instr, c :: rest =>
    if c = 92 then
      match rest with
      | [] => ([], [], false)
      | _ :: r2 => segCGo CSt.instr r2
    else if c = 34 then
      let r := segCGo CSt.code rest
      (32 :: r.1, r.2.1, r.2.2)
    else segCGo CSt.instr rest
  | CSt.inchr, [] => ([], [], false)
  | CSt.inchr, c :: rest =>
    if c = 92 then
      match rest with
      | [] => ([], [], false)
      | _ :: r2 => segCGo CSt.inchr r2
    else if c = 39 then
      let r := segCGo CSt.code rest
      (32 :: r.1, r.2.1, r.2.2)
    else segCGo CSt.inchr rest

/-- Modelled from the spec: C-family segmentation of one line, starting in
block-comment state when the carried flag is set (§4.1). -/
def segC (inBlock : Bool) (line : S) : S × S × Bool :=
  segCGo (if inBlock then CSt.blk else CSt.code) line

/-- Modelled from the spec: the line-oriented segmenter (§4.1).  `#` outside
a single- or double-quoted string starts the comment (the rest of the
line); strings absorb their content, a backslash inside a string escapes
the next character, and an unterminated string closes implicitly at line
end.  The state is the quote that opened the current string, if any.
Returns (code text, comment text). -/
def segPyGo : Option Nat → S → S × S
  | none, [] => ([], [])
  | none, c :: rest =>
    if c = 35 then ([], rest)
    else if c = 34 then segPyGo (some 34) rest
    else if c = 39 then segPyGo (some 39) rest
    else
      let r := segPyGo none rest
      (c :: r.1, r.2)
  | some _, [] => ([], [])
  | some q, c :: rest =>
    if c = 92 then
      match rest with
      | [] => ([], [])
      | _ :: r2 => segPyGo (some q) r2
    else if c = q then
      let r := segPyGo none rest
      (32 :: r.1, r.2)
    else segPyGo (some q) rest

/-- Modelled from the spec: line-oriented segmentation of one line. -/
def segPy (line : S) : S × S := segPyGo none line

/-! #### Step equations of the segmenters -/

theorem segCGo_code_nil : segCGo CSt.code [] = ([], [], false) := rfl

theorem segCGo_code_lineComment (r2 : S) :
    segCGo CSt.code (47 :: 47 :: r2) = ([], r2, false) := by
  rw [segCGo.eq_def]; norm_num

theorem segCGo_code_blockOpen (r2 : S) :
    segCGo CSt.code (47 :: 42 :: r2) = segCGo CSt.blk r2 := by
  rw [segCGo.eq_def]; norm_num

theorem segCGo_code_slash_nil : segCGo CSt.code (47 :: []) = ([47], [], false) := by
  rw [segCGo.eq_def]; norm_num

theorem segCGo_code_slash_other (c2 : Nat) (r2 : S) (h47 : ¬c2 = 47) (h42 : ¬c2 = 42) :
    segCGo CSt.code (47 :: c2 :: r2) =
      (47 :: (segCGo CSt.code (c2 :: r2)).1, (segCGo CSt.code (c2 :: r2)).2.1,
        (segCGo CSt.code (c2 :: r2)).2.2) := by
  rw [segCGo.eq_def]
  norm_num [if_neg h47, if_neg h42]

theorem segCGo_code_quote (rest : S) :
    segCGo CSt.code (34 :: rest) = segCGo CSt.instr rest := by
  rw [segCGo.eq_def]; norm_num

theorem segCGo_code_squote (rest : S) :
    segCGo CSt.code (39 :: rest) = segCGo CSt.inchr rest := by
  rw [segCGo.eq_def]; norm_num

theorem segCGo_code_other (c : Nat) (rest : S) (h47 : ¬c = 47) (h34 : ¬c = 34)
    (h39 : ¬c = 39) :
    segCGo CSt.code (c :: rest) =
      (c :: (segCGo CSt.code rest).1, (segCGo CSt.code rest).2.1,
        (segCGo CSt.code rest).2.2) := by
  rw [segCGo.eq_def]
  simp only [if_neg h47, if_neg h34, if_neg h39]

theorem segCGo_blk_nil : segCGo CSt.blk [] = ([], [], true) := rfl

theorem segCGo_blk_close (r2 : S) :
    segCGo CSt.blk (42 :: 47 :: r2) =
      (32 :: (segCGo CSt.code r2).1, 32 :: (segCGo CSt.code r2).2.1,
        (segCGo CSt.code r2).2.2) := by
  rw [segCGo.eq_def]; norm_num

theorem segCGo_blk_star_nil : segCGo CSt.blk (42 :: []) = ([], [42], true) := by
  rw [segCGo.eq_def]; norm_num

theorem segCGo_blk_star_other (c2 : Nat) (r2 : S) (h47 : ¬c2 = 47) :
    segCGo CSt.blk (42 :: c2 :: r2) =
      ((segCGo CSt.blk (c2 :: r2)).1, 42 :: (segCGo CSt.blk (c2 :: r2)).2.1,
        (segCGo CSt.blk (c2 :: r2)).2.2) := by
  rw [segCGo.eq_def]
  norm_num [if_neg h47]

theorem segCGo_blk_other (c : Nat) (rest : S) (h42 : ¬c = 42) :
    segCGo CSt.blk (c :: rest) =
      ((segCGo CSt.blk rest).1, c :: (segCGo CSt.blk rest).2.1,
        (segCGo CSt.blk rest).2.2) := by
  rw [segCGo.eq_def]
  simp only [if_neg h42]

theorem segCGo_instr_nil : segCGo CSt.instr [] = ([], [], false) := rfl

theorem segCGo_instr_esc (c : Nat) (r2 : S) :
    segCGo CSt.instr (92 :: c :: r2) = segCGo CSt.instr r2 := by
  rw [segCGo.eq_def]; norm_num

theorem segCGo_instr_esc_nil : segCGo CSt.instr (92 :: []) = ([], [], false) := by
  rw [segCGo.eq_def]; norm_num

theorem segCGo_instr_close (rest : S) :
    segCGo CSt.instr (34 :: rest) =
      (32 :: (segCGo CSt.code rest).1, (segCGo CSt.code rest).2.1,
        (segCGo CSt.code rest).2.2) := by
  rw [segCGo.eq_def]; norm_num

theorem segCGo_instr_other (c : Nat) (rest : S) (h92 : ¬c = 92) (h34 : ¬c = 34) :
    segCGo CSt.instr (c :: rest) = segCGo CSt.instr rest := by
  rw [segCGo.eq_def]
  simp only [if_neg h92, if_neg h34]

theorem segCGo_inchr_nil : segCGo CSt.inchr [] = ([], [], false) := rfl

theorem segCGo_inchr_esc (c : Nat) (r2 : S) :
    segCGo CSt.inchr (92 :: c :: r2) = segCGo CSt.inchr r2 := by
  rw [segCGo.eq_def]; norm_num

theorem segCGo_inchr_esc_nil : segCGo CSt.inchr (92 :: []) = ([], [], false) := by
  rw [segCGo.eq_def]; norm_num

theorem segCGo_inchr_close (rest : S) :
    segCGo CSt.inchr (39 :: rest) =
      (32 :: (segCGo CSt.code rest).1, (segCGo CSt.code rest).2.1,
        (segCGo CSt.code rest).2.2) := by
  rw [segCGo.eq_def]; norm_num

theorem segCGo_inchr_other (c : Nat) (rest : S) (h92 : ¬c = 92) (h39 : ¬c = 39) :
    segCGo CSt.inchr (c :: rest) = segCGo CSt.inchr rest := by
  rw [segCGo.eq_def]
  simp only [if_neg h92, if_neg h39]

theorem segPyGo_none_nil : segPyGo none [] = ([], []) := rfl

theorem segPyGo_none_hash (rest : S) : segPyGo none (35 :: rest) = ([], rest) := by
  rw [segPyGo.eq_def]; norm_num

theorem segPyGo_none_dquote (rest : S) :
    segPyGo none (34 :: rest) = segPyGo (some 34) rest := by
  rw [segPyGo.eq_def]; norm_num

theorem segPyGo_none_squote (rest : S) :
    segPyGo none (39 :: rest) = segPyGo (some 39) rest := by
  rw [segPyGo.eq_def]; norm_num

theorem segPyGo_none_other (c : Nat) (rest : S) (h35 : ¬c = 35) (h34 : ¬c = 34)
    (h39 : ¬c = 39) :
    segPyGo none (c :: rest) =
      (c :: (segPyGo none rest).1, (segPyGo none rest).2) := by
  rw [segPyGo.eq_def]
  simp only [if_neg h35, if_neg h34, if_neg h39]

theorem segPyGo_some_nil (q : Nat) : segPyGo (some q) [] = ([], []) := rfl

theorem segPyGo_some_esc (q c : Nat) (r2 : S) :
    segPyGo (some q) (92 :: c :: r2) = segPyGo (some q) r2 := by
  rw [segPyGo.eq_def]; norm_num

theorem segPyGo_some_esc_nil (q : Nat) : segPyGo (some q) (92 :: []) = ([], []) := by
  rw [segPyGo.eq_def]; norm_num

theorem segPyGo_some_close (q : Nat) (rest : S) (hq : ¬q = 92) :
    segPyGo (some q) (q :: rest) =
      (32 :: (segPyGo none rest).1, (segPyGo none rest).2) := by
  rw [segPyGo.eq_def]
  simp [if_neg hq]

theorem segPyGo_some_other (q c : Nat) (rest : S) (h92 : ¬c = 92) (hq : ¬c = q) :
    segPyGo (some q) (c :: rest) = segPyGo (some q) rest := by
  rw [segPyGo.eq_def]
  simp only [if_neg h92, if_neg hq]

/-! #### The C-family part of the registry (spec §4.2) -/

/-- Modelled from the spec: `NOLINTNEXTLINE`. -/
def nolintNextPat : List Tok := [Tok.lit (str "nolintnextline")]

/-- Modelled from the spec: `NOLINTBEGIN`. -/
def nolintBeginPat : List Tok := [Tok.lit (str "nolintbegin")]

/-- Modelled from the spec: bare `NOLINT`; `NOLINTEND` (the re-enable
marker) never matches, so a following `END` is excluded. -/
def nolintBarePat : List Tok := [Tok.lit (str "nolint"), Tok.notLit (str "end")]

/-- Modelled from the spec: `clang-format off` (`clang-format on` is the
re-enable marker and has no pattern). -/
def clangFormatOffPat : List Tok :=
  [Tok.lit (str "clang-format"), Tok.wsPlus, Tok.lit (str "off")]

/-- Modelled from the spec: `#pragma clang diagnostic ignored`; the other
pragma actions (push/pop) have no pattern. -/
def clangDiagPat : List Tok :=
  [Tok.lit (str "#pragma"), Tok.wsPlus, Tok.lit (str "clang"), Tok.wsPlus,
   Tok.lit (str "diagnostic"), Tok.wsPlus, Tok.lit (str "ignored")]

/-- Modelled from the spec: `clang-tidy` patterns, suffixed forms before the
bare form. -/
def CLANG_TIDY_PATTERNS : List (List Tok × String) :=
  [(nolintNextPat, "NOLINTNEXTLINE"),
   (nolintBeginPat, "NOLINTBEGIN"),
   (nolintBarePat, "NOLINT")]

/-- Modelled from the spec: `clang-format` patterns. -/
def CLANG_FORMAT_PATTERNS : List (List Tok × String) :=
  [(clangFormatOffPat, "clang-format off")]

/-- Modelled from the spec: `clang-diagnostic` patterns. -/
def CLANG_DIAG_PATTERNS : List (List Tok × String) :=
  [(clangDiagPat, "#pragma clang diagnostic ignored")]

/-- Modelled from the spec: the full per-tool registry, in registry
iteration order (§3, §4.2). -/
def ALL_TOOL_PATTERNS : List (String × List (List Tok × String)) :=
  [("yamllint", YAMLLINT_PATTERNS),
   ("pylint", PYLINT_PATTERNS),
   ("mypy", MYPY_PATTERNS),
   ("clang-tidy", CLANG_TIDY_PATTERNS),
   ("clang-format", CLANG_FORMAT_PATTERNS),
   ("clang-diagnostic", CLANG_DIAG_PATTERNS)]

/-- Modelled from the spec: the line matcher (§4.3) over an already
segmented line, annotated with the text each finding was matched against
(comment text, or code text for the `#pragma` tool).  At most one entry
per requested tool, in registry order. -/
def matchSeg (tools : List String) (cd cm : S) : List (String × String × S) :=
  ALL_TOOL_PATTERNS.filterMap fun tp =>
    if tools.contains tp.1 then
      let text := if tp.1 = "clang-diagnostic" then cd else cm
      (tp.2.find? fun pd => reSearch pd.1 text).map fun pd => (tp.1, pd.2, text)
    else none

/-- Modelled from the spec: segment one line in the given mode with the
carried block-comment state, returning the annotated findings and the
carried-out state (§4.1, §4.3).  The line-oriented mode has no cross-line
state. -/
def scanLineAnn (mode : Mode) (tools : List String) (inBlock : Bool) (line : S) :
    List (String × String × S) × Bool :=
  match mode with
  | Mode.lineOriented =>
    let r := segPy line
    (matchSeg tools r.1 r.2, false)
  | Mode.cFamily =>
    let r := segC inBlock line
    (matchSeg tools r.1 r.2.1, r.2.2)

/-- Modelled from the spec: the comment-aware line scan, the
`(tool, label)` results of `scanLineAnn`. -/
def scanLineT (mode : Mode) (tools : List String) (inBlock : Bool) (line : S) :
    List (String × String) × Bool :=
  ((scanLineAnn mode tools inBlock line).1.map fun e => (e.1, e.2.1),
   (scanLineAnn mode tools inBlock line).2)

/-- Modelled from the spec: allow-pattern suppression (§3, §4.4) as
substring containment of the allow pattern in the rendered directive
text. -/
def isSub (p : S) : S → Bool
  | [] => decide (p = [])
  | c :: r => p.isPrefixOf (c :: r) || isSub p r

/-- Modelled from the spec: whether some allow pattern suppresses a finding
whose rendered directive text is `text`. -/
def allowDrop (allows : List S) (text : S) : Bool :=
  allows.any fun a => isSub a text

/-- Modelled from the spec: the file scanner loop (§4.4), threading the
carried block-comment state through the lines and dropping findings whose
rendered text matches an allow pattern. -/
def scanFileGo (mode : Mode) (path : String) (tools : List String) (allows : List S) :
    Nat → Bool → List S → List Finding
  | _, _, [] => []
  | i, inB, l :: ls =>
    let r := scanLineAnn mode tools inB l
    ((r.1.filter fun e => !allowDrop allows e.2.2).map fun e =>
      { path := path, line_number := i, tool := e.1, directive := e.2.1 })
      ++ scanFileGo mode path tools allows (i + 1) r.2 ls

/-- Modelled from the spec: the file scanner (§4.4): split into lines, scan
with carried state starting outside any block comment, apply allow-pattern
suppression. -/
def scanFileT (mode : Mode) (path : String) (content : S) (tools : List String)
    (allows : List S) : List Finding :=
  scanFileGo mode path tools allows 1 false (splitlines content)

/-- Modelled from the spec: the file scanner without allow-pattern
suppression, each finding annotated with its rendered directive text
(used to characterise allow-pattern suppression as a filter). -/
def scanFileAnnGo (mode : Mode) (path : String) (tools : List String) :
    Nat → Bool → List S → List (Finding × S)
  | _, _, [] => []
  | i, inB, l :: ls =>
    let r := scanLineAnn mode tools inB l
    (r.1.map fun e =>
      ({ path := path, line_number := i, tool := e.1, directive := e.2.1 }, e.2.2))
      ++ scanFileAnnGo mode path tools (i + 1) r.2 ls

/-- Modelled from the spec: annotated scan of a whole file, without
allow-pattern suppression. -/
def scanFileAnn (mode : Mode) (path : String) (content : S) (tools : List String) :
    List (Finding × S) :=
  scanFileAnnGo mode path tools 1 false (splitlines content)

def allTools : List String :=
  ["yamllint", "pylint", "mypy", "clang-tidy", "clang-format", "clang-diagnostic"]

example : (scanLineT Mode.lineOriented ["pylint", "mypy"] false (str "x = 1")).1 = [] := by
  decide
example : (scanLineT Mode.lineOriented ["mypy"] false (str "x = 1  # type: ignore")).1 =
    [("mypy", "type: ignore")] := by decide
example :
    (scanLineT Mode.lineOriented ["mypy"] false (str "s = \"type: ignore\"")).1 = [] := by
  decide
example :
    (scanLineT Mode.lineOriented ["pylint"] false (str "s = 'pylint: disable'")).1 = [] := by
  decide
example : (scanLineT Mode.lineOriented ["mypy"] false
    (str "s = \"hello\"  # type: ignore")).1 = [("mypy", "type: ignore")] := by decide
example : (scanLineT Mode.lineOriented ["pylint"] false (str "# type: ignore")).1 = [] := by
  decide
example : (scanLineT Mode.cFamily ["clang-tidy"] false (str "int x = 1; // NOLINT")).1 =
    [("clang-tidy", "NOLINT")] := by decide
example : (scanLineT Mode.cFamily ["clang-tidy"] false (str "// NOLINTNEXTLINE")).1 =
    [("clang-tidy", "NOLINTNEXTLINE")] := by decide
example : (scanLineT Mode.cFamily ["clang-format"] false (str "// clang-format off")).1 =
    [("clang-format", "clang-format off")] := by decide
example : (scanLineT Mode.cFamily ["clang-diagnostic"] false
    (str "#pragma clang diagnostic ignored \"-Wfoo\"")).1 =
    [("clang-diagnostic", "#pragma clang diagnostic ignored")] := by decide
example : (scanLineT Mode.cFamily ["clang-tidy"] false (str "int x = 1; /* NOLINT */")).1 =
    [("clang-tidy", "NOLINT")] := by decide
example : (scanLineT Mode.cFamily ["clang-tidy"] false (str "// NOLINTEND")).1 = [] := by
  decide
example : scanFileT Mode.cFamily "t.cpp" (str "/*\n * NOLINT\n */\nint x = 1;\n")
    ["clang-tidy"] [] =
    [{ path := "t.cpp", line_number := 2, tool := "clang-tidy", directive := "NOLINT" }] := by
  decide
example : scanFileT Mode.cFamily "t.cpp"
    (str "#pragma clang diagnostic ignored \"-Wfoo\"\nint x = 1;\n")
    ["clang-diagnostic"] [str "zzz"] =
    [{ path := "t.cpp", line_number := 1, tool := "clang-diagnostic",
       directive := "#pragma clang diagnostic ignored" }] := by decide
example : scanFileT Mode.cFamily "t.cpp" (str "/*\n#pragma clang diagnostic ignored \"-Wfoo\"\n*/\n")
    ["clang-diagnostic"] [] = [] := by decide
example : scanFileT Mode.cFamily "t.cpp" (str "const char* s = \"escaped \\\" NOLINT\";\n")
    ["clang-tidy"] [] = [] := by decide
example : scanFileT Mode.cFamily "t.cpp" (str "const char* s = \"path\\\\NOLINT\";\n")
    ["clang-tidy"] [] = [] := by decide
example : scanFileT Mode.cFamily "t.cpp" (str "char c = '\\'';\n") ["clang-tidy"] [] = [] := by
  decide
example : scanFileT Mode.cFamily "t.cpp" (str "int x = 1; // NOLINT(bugprone-*)\n")
    ["clang-tidy"] [str "NOLINT(bugprone-*)"] = [] := by decide
example : scanFileT Mode.cFamily "t.cpp" (str "int x = 1; // NOLINT\n")
    ["clang-tidy"] [str "NOLINT(bugprone-*)"] =
    [{ path := "t.cpp", line_number := 1, tool := "clang-tidy", directive := "NOLINT" }] := by
  decide
example : scanFileT Mode.lineOriented "t.py"
    (str "# pylint: disable=too-many-arguments\nx = 1  # type: ignore[import]\ny = 2  # type: ignore\n")
    ["pylint", "mypy"] [str "type: ignore[import]", str "too-many-arguments"] =
    [{ path := "t.py", line_number := 3, tool := "mypy", directive := "type: ignore" }] := by
  decide
example : scanFileT Mode.cFamily "t.cpp" (str "int x = 1; /* safe */ int y = 2; // NOLINT\n")
    ["clang-tidy"] [] =
    [{ path := "t.cpp", line_number := 1, tool := "clang-tidy", directive := "NOLINT" }] := by
  decide
example : scanFileT Mode.cFamily "t.cpp" (str "int /* a */ x /* b */ = 1;\n")
    ["clang-tidy"] [] = [] := by decide
example : scanFileT Mode.cFamily "t.cpp" (str "int x = 1; /* NOLINT\nend of comment */\n")
    ["clang-tidy"] [] =
    [{ path := "t.cpp", line_number := 1, tool := "clang-tidy", directive := "NOLINT" }] := by
  decide
example : scanFileT Mode.cFamily "t.cpp" (str "/* comment */ int x = 1;\n")
    ["clang-tidy"] [] = [] := by decide

example : scan_line (str "normal code here") = [] := by decide
example : scan_line (str "# yamllint disable-line rule:line-length") =
    [("yamllint", "yamllint disable-line")] := by decide
example : scan_line (str "# yamllint disable rule:line-length") =
    [("yamllint", "yamllint disable")] := by decide
example : scan_line (str "# yamllint enable") = [] := by decide
example : scan_line (str "# pylint: disable=missing-docstring") =
    [("pylint", "pylint: disable")] := by decide
example : scan_line (str "# pylint: disable-next=line-too-long") =
    [("pylint", "pylint: disable-next")] := by decide
example : scan_line (str "# pylint: enable=missing-docstring") = [] := by decide
example : scan_line (str "x = foo()  # type: ignore[attr-defined]") =
    [("mypy", "type: ignore")] := by decide
example : scan_line (str "# PYLINT: DISABLE=foo") =
    [("pylint", "pylint: disable")] := by decide
example : scan_line (str "# pylint:   disable=foo") =
    [("pylint", "pylint: disable")] := by decide
example : scan_line (str "# pylint: disable=foo pylint: disable-next=bar") =
    [("pylint", "pylint: disable-next")] := by decide
example : scan_line (str "# pylint: disable=foo  # type: ignore") =
    [("pylint", "pylint: disable"), ("mypy", "type: ignore")] := by decide
example : scan_file "test.py" (str "# pylint: disable=foo\nx = 1\ny = 2  # type: ignore\n") =
    [{ path := "test.py", line_number := 1, tool := "pylint", directive := "pylint: disable" },
     { path := "test.py", line_number := 3, tool := "mypy", directive := "type: ignore" }] := by
  decide

/-! ### Theorems -/

/-- C10: directive matching requires no word boundary after the matched
form: a line containing `pylint: disabled` still yields
`(pylint, "pylint: disable")` (only a following hyphen is excluded after
the bare `disable`), and a line containing `type: ignores` yields
`(mypy, "type: ignore")`. -/
theorem scan_line_no_word_boundary :
    scan_line (str "x = 1  # pylint: disabled") = [("pylint", "pylint: disable")] ∧
    scan_line (str "x = 1  # type: ignores") = [("mypy", "type: ignore")] := by
  constructor <;> decide

/-- C6: with every tool requested, a C-family line whose comment text
contains `NOLINT`, `NOLINTNEXTLINE` or `NOLINTBEGIN` yields exactly one
finding, for the C-family static analyzer, while `NOLINTEND` alone yields
none. -/
theorem clang_tidy_vocabulary :
    (scanLineT Mode.cFamily allTools false (str "// NOLINT")).1 =
      [("clang-tidy", "NOLINT")] ∧
    (scanLineT Mode.cFamily allTools false (str "// NOLINTNEXTLINE")).1 =
      [("clang-tidy", "NOLINTNEXTLINE")] ∧
    (scanLineT Mode.cFamily allTools false (str "// NOLINTBEGIN")).1 =
      [("clang-tidy", "NOLINTBEGIN")] ∧
    (scanLineT Mode.cFamily allTools false (str "// NOLINTEND")).1 = [] := by
  refine ⟨?_, ?_, ?_, ?_⟩ <;> decide

/-- C2: `scan_line` yields at most one entry per tool (its entries carry
pairwise distinct tools), and on a line matched by both the bare and the
suffixed pylint disable pattern the single pylint entry is labeled by the
suffixed form, which is first in the registry's priority order. -/
theorem scan_line_one_entry_per_tool (line : S) :
    List.Pairwise (fun a b => a.1 ≠ b.1) (scan_line line) ∧
    (reSearch pylBarePat line = true → reSearch pylNextPat line = true →
      (scan_line line).filter (fun e => e.1 == "pylint") =
        [("pylint", "pylint: disable-next")]) := by
  constructor
  · unfold scan_line ALL_PATTERNS
    cases hy : List.find? (fun pd => reSearch pd.1 line) YAMLLINT_PATTERNS <;>
      cases hp : List.find? (fun pd => reSearch pd.1 line) PYLINT_PATTERNS <;>
        cases hm : List.find? (fun pd => reSearch pd.1 line) MYPY_PATTERNS <;>
          simp [List.filterMap, hy, hp, hm]
  · intro h1 h2
    have hfind : List.find? (fun pd => reSearch pd.1 line) PYLINT_PATTERNS =
        some (pylNextPat, "pylint: disable-next") := by
      unfold PYLINT_PATTERNS
      rw [List.find?_cons]
      simp [h2]
    unfold scan_line ALL_PATTERNS
    cases hy : List.find? (fun pd => reSearch pd.1 line) YAMLLINT_PATTERNS <;>
      cases hm : List.find? (fun pd => reSearch pd.1 line) MYPY_PATTERNS <;>
        simp [List.filterMap, hy, hm, hfind, List.filter]

/-- Witness for C2 at the line
`# pylint: disable=foo pylint: disable-next=bar` of the repository's unit
tests. -/
theorem scan_line_one_entry_per_tool_witness :
    (scan_line (str "# pylint: disable=foo pylint: disable-next=bar")).filter
        (fun e => e.1 == "pylint") = [("pylint", "pylint: disable-next")] :=
  (scan_line_one_entry_per_tool
    (str "# pylint: disable=foo pylint: disable-next=bar")).2 (by decide) (by decide)

/-- An entry of the line matcher carries a requested tool. -/
theorem mem_matchSeg_tool {tools : List String} {cd cm : S} {e : String × String × S}
    (h : e ∈ matchSeg tools cd cm) : e.1 ∈ tools := by
  unfold matchSeg at h
  rcases List.mem_filterMap.mp h with ⟨tp, _, hsome⟩
  by_cases hc : tools.contains tp.1
  · rw [if_pos hc] at hsome
    rcases Option.map_eq_some'.mp hsome with ⟨pd, _, he⟩
    have : e.1 = tp.1 := by rw [← he]
    rw [this]
    simpa using hc
  · rw [if_neg hc] at hsome
    exact absurd hsome (by simp)

/-- An entry of the annotated line scan carries a requested tool. -/
theorem mem_scanLineAnn_tool {mode : Mode} {tools : List String} {inB : Bool} {line : S}
    {e : String × String × S} (h : e ∈ (scanLineAnn mode tools inB line).1) :
    e.1 ∈ tools := by
  cases mode <;> exact mem_matchSeg_tool h

/-- A finding of the file-scanner loop carries a requested tool. -/
theorem mem_scanFileGo_tool {mode : Mode} {path : String} {tools : List String}
    {allows : List S} {f : Finding} :
    ∀ {i : Nat} {inB : Bool} {ls : List S},
      f ∈ scanFileGo mode path tools allows i inB ls → f.tool ∈ tools := by
  intro i inB ls
  induction ls generalizing i inB with
  | nil => intro h; exact absurd h (by simp [scanFileGo])
  | cons l ls ih =>
    intro h
    rw [scanFileGo] at h
    rcases List.mem_append.mp h with h1 | h2
    · rcases List.mem_map.mp h1 with ⟨e, he, hf⟩
      have : f.tool = e.1 := by rw [← hf]
      rw [this]
      exact mem_scanLineAnn_tool (List.mem_of_mem_filter he)
    · exact ih h2

/-- C4: findings are produced only for requested tools: any entry of the
comment-aware line scan and any finding of the file scan names a tool of
the requested set. -/
theorem findings_only_for_requested_tools :
    (∀ (mode : Mode) (tools : List String) (inB : Bool) (line : S)
        (e : String × String), e ∈ (scanLineT mode tools inB line).1 → e.1 ∈ tools) ∧
    (∀ (mode : Mode) (path : String) (content : S) (tools : List String)
        (allows : List S) (f : Finding),
      f ∈ scanFileT mode path content tools allows → f.tool ∈ tools) := by
  constructor
  · intro mode tools inB line e he
    unfold scanLineT at he
    rcases List.mem_map.mp he with ⟨e₀, he₀, hf⟩
    have : e.1 = e₀.1 := by rw [← hf]
    rw [this]
    exact mem_scanLineAnn_tool he₀
  · intro mode path content tools allows f hf
    exact mem_scanFileGo_tool hf

/-- Witness for C4: a concrete finding of a concrete scan names a tool of
the requested set. -/
theorem findings_only_for_requested_tools_witness :
    ("mypy" : String) ∈ ["pylint", "mypy"] :=
  findings_only_for_requested_tools.2 Mode.lineOriented "t.py"
    (str "x = 1  # type: ignore\n") ["pylint", "mypy"] []
    { path := "t.py", line_number := 1, tool := "mypy", directive := "type: ignore" }
    (by decide)

/-- The file-scanner loop with allow patterns is the allow-free annotated
loop, filtered to the findings whose rendered text no allow pattern
matches. -/
theorem scanFileGo_eq_filter (mode : Mode) (path : String) (tools : List String)
    (allows : List S) :
    ∀ (i : Nat) (inB : Bool) (ls : List S),
      scanFileGo mode path tools allows i inB ls =
        ((scanFileAnnGo mode path tools i inB ls).filter
          (fun fa => !allowDrop allows fa.2)).map Prod.fst := by
  intro i inB ls
  induction ls generalizing i inB with
  | nil => rfl
  | cons l ls ih =>
    rw [scanFileGo, scanFileAnnGo, List.filter_append, List.map_append, ih,
      List.filter_map, List.map_map]
    rfl

/-- C7: allow-pattern suppression drops exactly the findings whose rendered
directive text some allow pattern matches (substring containment) and
keeps all others unchanged: the file scan with allow patterns is the
allow-free annotated scan filtered by `allowDrop` and stripped of its
annotations. -/
theorem scanFileT_allow_suppression (mode : Mode) (path : String) (content : S)
    (tools : List String) (allows : List S) :
    scanFileT mode path content tools allows =
      ((scanFileAnn mode path content tools).filter
        (fun fa => !allowDrop allows fa.2)).map Prod.fst :=
  scanFileGo_eq_filter mode path tools allows 1 false (splitlines content)

/-- Line numbers reported by the file-scanner loop stay within the block of
lines it was given. -/
theorem scanFileGo_bounds {mode : Mode} {path : String} {tools : List String}
    {allows : List S} :
    ∀ {ls : List S} {i : Nat} {inB : Bool} {f : Finding},
      f ∈ scanFileGo mode path tools allows i inB ls →
      i ≤ f.line_number ∧ f.line_number < i + ls.length := by
  intro ls
  induction ls with
  | nil => intro i inB f h; exact absurd h (by simp [scanFileGo])
  | cons l ls ih =>
    intro i inB f h
    rw [scanFileGo] at h
    rcases List.mem_append.mp h with h1 | h2
    · rcases List.mem_map.mp h1 with ⟨e, _, hf⟩
      have : f.line_number = i := by rw [← hf]
      rw [this]
      constructor
      · exact Nat.le_refl i
      · simp [Nat.lt_add_of_pos_right]
    · have := ih h2
      constructor
      · omega
      · simpa [Nat.add_assoc] using (by omega : f.line_number < i + (ls.length + 1))

/-- In line-oriented mode the carried state is irrelevant and the file scan
is the per-line scan of each line in isolation. -/
theorem scanFileGo_lineOriented (path : String) (tools : List String) (allows : List S) :
    ∀ (ls : List S) (i : Nat) (inB : Bool),
      scanFileGo Mode.lineOriented path tools allows i inB ls =
        (ls.enumFrom i).flatMap (fun il =>
          ((scanLineAnn Mode.lineOriented tools false il.2).1.filter
            (fun e => !allowDrop allows e.2.2)).map (fun e =>
              { path := path, line_number := il.1, tool := e.1, directive := e.2.1 })) := by
  intro ls
  induction ls with
  | nil => intro i inB; rfl
  | cons l ls ih =>
    intro i inB
    rw [scanFileGo, List.enumFrom_cons, List.flatMap_cons]
    have hst : (scanLineAnn Mode.lineOriented tools inB l).2 = false := rfl
    have hln : (scanLineAnn Mode.lineOriented tools inB l).1 =
        (scanLineAnn Mode.lineOriented tools false l).1 := rfl
    rw [hst, hln, ih (i + 1) false]

/-- C9: the scan is total and per-line state does not leak: every reported
finding lies on an existing 1-based line of the input; in line-oriented
mode the scan of a file is the independent scan of its lines (no state
crosses a line boundary); and on malformed input — an unterminated string
literal, or an unterminated block comment at end of file — the scan still
returns a result, the unterminated literal closing at line end without
suppressing the next line's directive. -/
theorem scan_total_and_stateless :
    (∀ (mode : Mode) (path : String) (content : S) (tools : List String)
        (allows : List S) (f : Finding),
      f ∈ scanFileT mode path content tools allows →
      1 ≤ f.line_number ∧ f.line_number ≤ (splitlines content).length) ∧
    (∀ (path : String) (content : S) (tools : List String) (allows : List S),
      scanFileT Mode.lineOriented path content tools allows =
        ((splitlines content).enumFrom 1).flatMap (fun il =>
          ((scanLineAnn Mode.lineOriented tools false il.2).1.filter
            (fun e => !allowDrop allows e.2.2)).map (fun e =>
              { path := path, line_number := il.1, tool := e.1, directive := e.2.1 }))) ∧
    scanFileT Mode.lineOriented "t.py" (str "s = \"unterminated\ny = 1  # type: ignore")
        ["mypy"] [] =
      [{ path := "t.py", line_number := 2, tool := "mypy", directive := "type: ignore" }] ∧
    scanFileT Mode.cFamily "t.cpp"
        (str "const char* s = \"unterminated\nint x = 1; // NOLINT") ["clang-tidy"] [] =
      [{ path := "t.cpp", line_number := 2, tool := "clang-tidy", directive := "NOLINT" }] ∧
    scanFileT Mode.cFamily "t.cpp" (str "int x = 1; /* NOLINT") ["clang-tidy"] [] =
      [{ path := "t.cpp", line_number := 1, tool := "clang-tidy", directive := "NOLINT" }] := by
  refine ⟨?_, ?_, by decide, by decide, by decide⟩
  · intro mode path content tools allows f h
    have h2 : f ∈ scanFileGo mode path tools allows 1 false (splitlines content) := h
    have := scanFileGo_bounds h2
    omega
  · intro path content tools allows
    exact scanFileGo_lineOriented path tools allows (splitlines content) 1 false

/-- Witness for C9 on a file ending inside a block comment. -/
theorem scan_total_and_stateless_witness :
    1 ≤ ({ path := "t.cpp", line_number := 1, tool := "clang-tidy",
            directive := "NOLINT" } : Finding).line_number ∧
    ({ path := "t.cpp", line_number := 1, tool := "clang-tidy",
        directive := "NOLINT" } : Finding).line_number ≤
      (splitlines (str "int x = 1; /* NOLINT")).length :=
  scan_total_and_stateless.1 Mode.cFamily "t.cpp" (str "int x = 1; /* NOLINT")
    ["clang-tidy"] []
    { path := "t.cpp", line_number := 1, tool := "clang-tidy", directive := "NOLINT" }
    (by decide)

/-- Case-insensitive substring occurrence: the literal `p` matches at the
head of some suffix of the text. -/
def containsCI : S → S → Bool
  | p, [] => isPrefCI p []
  | p, c :: r => isPrefCI p (c :: r) || containsCI p r

/-- A successful literal match leaves a suffix of the input. -/
theorem matchLit_suffix : ∀ {L s m : S}, matchLit L s = some m → List.IsSuffix m s := by
  intro L
  induction L with
  | nil =>
    intro s m h
    rw [matchLit] at h
    cases h
    exact List.suffix_refl s
  | cons p ps ih =>
    intro s m h
    cases s with
    | nil => exact absurd h (by rw [matchLit]; simp)
    | cons c cs =>
      rw [matchLit] at h
      by_cases hc : lcN c = lcN p
      · rw [if_pos hc] at h
        exact (ih h).trans (List.suffix_cons c cs)
      · rw [if_neg hc] at h
        cases h

/-- Dropping leading whitespace leaves a suffix. -/
theorem dropWs_suffix : ∀ s : S, List.IsSuffix (dropWs s) s := by
  intro s
  induction s with
  | nil => exact List.suffix_refl []
  | cons c r ih =>
    rw [dropWs]
    by_cases hc : wsN c
    · rw [if_pos hc]
      exact ih.trans (List.suffix_cons c r)
    · rw [if_neg hc]

/-- If a token sequence containing the literal `L` matches at the head of
`s`, then `L` matches at the head of some suffix of `s`. -/
theorem matchToks_lit_mem : ∀ {toks : List Tok} {s : S} {L : S},
    matchToks toks s = true → Tok.lit L ∈ toks →
    ∃ t : S, List.IsSuffix t s ∧ isPrefCI L t = true := by
  intro toks
  induction toks with
  | nil => intro s L _ hmem; exact absurd hmem (by simp)
  | cons tk ts ih =>
    intro s L hm hmem
    rcases List.mem_cons.mp hmem with heq | hmem2
    · cases tk with
      | lit L' =>
        cases heq
        rw [matchToks] at hm
        cases hml : matchLit L s with
        | none => rw [hml] at hm; cases hm
        | some r => exact ⟨s, List.suffix_refl s, by rw [isPrefCI, hml]; rfl⟩
      | wsStar => cases heq
      | wsPlus => cases heq
      | notLit L' => cases heq
    · cases tk with
      | lit L' =>
        rw [matchToks] at hm
        cases hml : matchLit L' s with
        | none => rw [hml] at hm; cases hm
        | some r =>
          rw [hml] at hm
          rcases ih hm hmem2 with ⟨t, hts, hp⟩
          exact ⟨t, hts.trans (matchLit_suffix hml), hp⟩
      | wsStar =>
        rw [matchToks] at hm
        rcases ih hm hmem2 with ⟨t, hts, hp⟩
        exact ⟨t, hts.trans (dropWs_suffix s), hp⟩
      | wsPlus =>
        cases s with
        | nil => rw [matchToks] at hm; cases hm
        | cons c r =>
          rw [matchToks] at hm
          rcases (by simpa using hm : wsN c = true ∧ matchToks ts (dropWs r) = true)
            with ⟨_, hm2⟩
          rcases ih hm2 hmem2 with ⟨t, hts, hp⟩
          exact ⟨t, (hts.trans (dropWs_suffix r)).trans (List.suffix_cons c r), hp⟩
      | notLit L' =>
        rw [matchToks] at hm
        rcases (by simpa using hm : (!isPrefCI L' s) = true ∧ matchToks ts s = true)
          with ⟨_, hm2⟩
        rcases ih hm2 hmem2 with ⟨t, hts, hp⟩
        exact ⟨t, hts, hp⟩

/-- A successful search matches at the head of some suffix. -/
theorem reSearch_suffix : ∀ {p : List Tok} {s : S}, reSearch p s = true →
    ∃ t : S, List.IsSuffix t s ∧ matchToks p t = true := by
  intro p s
  induction s with
  | nil => intro h; exact ⟨[], List.suffix_refl [], h⟩
  | cons c r ih =>
    intro h
    rw [reSearch] at h
    rcases (by simpa using h :
        matchToks p (c :: r) = true ∨ reSearch p r = true) with h1 | h2
    · exact ⟨c :: r, List.suffix_refl _, h1⟩
    · rcases ih h2 with ⟨t, hts, hm⟩
      exact ⟨t, hts.trans (List.suffix_cons c r), hm⟩

/-- A literal matching at the head of a suffix is a substring occurrence. -/
theorem containsCI_of_suffix {L t s : S} (hsuf : List.IsSuffix t s)
    (hp : isPrefCI L t = true) : containsCI L s = true := by
  rcases hsuf with ⟨pre, rfl⟩
  induction pre with
  | nil =>
    rw [List.nil_append]
    cases t with
    | nil => rw [containsCI]; exact hp
    | cons c r =>
      rw [containsCI, hp]
      exact Bool.true_or _
  | cons a pre ih =>
    rw [List.cons_append, containsCI, ih]
    exact Bool.or_true _

/-- A match of `a ++ b` at the head is in particular a match of `a`. -/
theorem isPrefCI_of_append : ∀ {a b t : S}, isPrefCI (a ++ b) t = true →
    isPrefCI a t = true := by
  intro a
  induction a with
  | nil => intro b t _; rw [isPrefCI, matchLit]; rfl
  | cons p ps ih =>
    intro b t h
    cases t with
    | nil => exact absurd h (by rw [isPrefCI, List.cons_append, matchLit]; simp)
    | cons c cs =>
      rw [isPrefCI, List.cons_append, matchLit] at h
      rw [isPrefCI, matchLit]
      by_cases hc : lcN c = lcN p
      · rw [if_pos hc] at h ⊢
        exact ih h
      · rw [if_neg hc] at h
        cases h

/-- If a pattern containing a literal that extends the keyword `K` matches
somewhere in `s`, then `K` occurs (case-insensitively) in `s`. -/
theorem containsCI_of_reSearch {p : List Tok} {L K : S} (hmem : Tok.lit L ∈ p)
    (hK : ∃ b : S, L = K ++ b) : ∀ {s : S}, reSearch p s = true →
    containsCI K s = true := by
  intro s h
  rcases reSearch_suffix h with ⟨t, hts, hm⟩
  rcases matchToks_lit_mem hm hmem with ⟨t2, ht2, hp⟩
  rcases hK with ⟨b, rfl⟩
  exact containsCI_of_suffix (ht2.trans hts) (isPrefCI_of_append hp)

/-- A line without any (case-insensitive) occurrence of `disable`,
`skip-file` or `ignore` yields no `scan_line` finding: every registry
pattern requires one of these keywords. -/
theorem scan_line_eq_nil {line : S} (hd : containsCI (str "disable") line = false)
    (hs : containsCI (str "skip-file") line = false)
    (hi : containsCI (str "ignore") line = false) : scan_line line = [] := by
  have kw : ∀ pat ∈ ALL_PATTERNS, ∀ pd ∈ pat.2, reSearch pd.1 line = false := by
    intro pat hpat pd hpd
    by_contra hne
    have htrue : reSearch pd.1 line = true := by
      cases hv : reSearch pd.1 line
      · exact absurd hv hne
      · rfl
    rcases (by simpa [ALL_PATTERNS] using hpat :
        pat = ("yamllint", YAMLLINT_PATTERNS) ∨ pat = ("pylint", PYLINT_PATTERNS) ∨
          pat = ("mypy", MYPY_PATTERNS)) with rfl | rfl | rfl
    · rcases (by simpa [YAMLLINT_PATTERNS] using hpd :
          pd = (yamLinePat, "yamllint disable-line") ∨
            pd = (yamFilePat, "yamllint disable-file") ∨
            pd = (yamBarePat, "yamllint disable")) with rfl | rfl | rfl
      · exact absurd (containsCI_of_reSearch (L := str "disable-line")
          (K := str "disable") (by decide) ⟨str "-line", by decide⟩ htrue)
          (by rw [hd]; simp)
      · exact absurd (containsCI_of_reSearch (L := str "disable-file")
          (K := str "disable") (by decide) ⟨str "-file", by decide⟩ htrue)
          (by rw [hd]; simp)
      · exact absurd (containsCI_of_reSearch (L := str "disable")
          (K := str "disable") (by decide) ⟨[], by decide⟩ htrue)
          (by rw [hd]; simp)
    · rcases (by simpa [PYLINT_PATTERNS] using hpd :
          pd = (pylNextPat, "pylint: disable-next") ∨
            pd = (pylLinePat, "pylint: disable-line") ∨
            pd = (pylSkipPat, "pylint: skip-file") ∨
            pd = (pylBarePat, "pylint: disable")) with rfl | rfl | rfl | rfl
      · exact absurd (containsCI_of_reSearch (L := str "disable-next")
          (K := str "disable") (by decide) ⟨str "-next", by decide⟩ htrue)
          (by rw [hd]; simp)
      · exact absurd (containsCI_of_reSearch (L := str "disable-line")
          (K := str "disable") (by decide) ⟨str "-line", by decide⟩ htrue)
          (by rw [hd]; simp)
      · exact absurd (containsCI_of_reSearch (L := str "skip-file")
          (K := str "skip-file") (by decide) ⟨[], by decide⟩ htrue)
          (by rw [hs]; simp)
      · exact absurd (containsCI_of_reSearch (L := str "disable")
          (K := str "disable") (by decide) ⟨[], by decide⟩ htrue)
          (by rw [hd]; simp)
    · rcases (by simpa [MYPY_PATTERNS] using hpd :
          pd = (mypyTiPat, "type: ignore") ∨ pd = (mypyIePat, "mypy: ignore-errors"))
          with rfl | rfl
      · exact absurd (containsCI_of_reSearch (L := str "ignore")
          (K := str "ignore") (by decide) ⟨[], by decide⟩ htrue)
          (by rw [hi]; simp)
      · exact absurd (containsCI_of_reSearch (L := str "ignore-errors")
          (K := str "ignore") (by decide) ⟨str "-errors", by decide⟩ htrue)
          (by rw [hi]; simp)
  unfold scan_line
  apply List.filterMap_eq_nil_iff.mpr
  intro tp htp
  rw [Option.map_eq_none']
  apply List.find?_eq_none.mpr
  intro pd hpd
  rw [kw tp htp pd hpd]
  simp

/-- C5: re-enable counterparts never yield a finding.  Any line free of a
case-insensitive occurrence of `disable`, `skip-file` and `ignore` — in
particular every `enable` form — yields no finding of the source
scanner's registry, and the modelled C-family re-enable markers
(`NOLINTEND`, `clang-format on`, a diagnostic-pragma `push`) yield no
finding either, with every tool requested. -/
theorem reenable_never_yields_finding :
    (∀ line : S, containsCI (str "disable") line = false →
      containsCI (str "skip-file") line = false →
      containsCI (str "ignore") line = false → scan_line line = []) ∧
    scan_line (str "# yamllint enable") = [] ∧
    scan_line (str "# yamllint enable-line") = [] ∧
    scan_line (str "# yamllint enable-file") = [] ∧
    scan_line (str "# pylint: enable=foo") = [] ∧
    scan_line (str "# pylint: enable-next=bar") = [] ∧
    (scanLineT Mode.cFamily allTools false (str "// NOLINTEND")).1 = [] ∧
    (scanLineT Mode.cFamily allTools false (str "// clang-format on")).1 = [] ∧
    (scanLineT Mode.cFamily allTools false (str "#pragma clang diagnostic push")).1 = [] := by
  refine ⟨fun line hd hs hi => scan_line_eq_nil hd hs hi,
    by decide, by decide, by decide, by decide, by decide, by decide, by decide, by decide⟩

/-- Witness for C5: a pylint `enable` line with a payload yields no
finding. -/
theorem reenable_never_yields_finding_witness :
    scan_line (str "# pylint: enable=no-member") = [] :=
  reenable_never_yields_finding.1 (str "# pylint: enable=no-member")
    (by decide) (by decide) (by decide)

/-- Inside a string literal, characters other than the quote and the
backslash are absorbed without affecting the segmentation. -/
theorem segCGo_instr_skip : ∀ w rest : S, 34 ∉ w → 92 ∉ w →
    segCGo CSt.instr (w ++ rest) = segCGo CSt.instr rest := by
  intro w
  induction w with
  | nil => intro rest _ _; rw [List.nil_append]
  | cons c w ih =>
    intro rest h34 h92
    have hc34 : ¬c = 34 := by intro h; subst h; exact h34 (List.mem_cons_self 34 w)
    have hc92 : ¬c = 92 := by intro h; subst h; exact h92 (List.mem_cons_self 92 w)
    rw [List.cons_append, segCGo_instr_other c _ hc92 hc34]
    exact ih rest (fun h => h34 (List.mem_cons_of_mem c h))
      (fun h => h92 (List.mem_cons_of_mem c h))

/-- If no tool's pattern list matches its text, the line matcher yields
nothing, whatever the requested tool set. -/
theorem matchSeg_eq_nil {tools : List String} {cd cm : S}
    (h : ∀ tp ∈ ALL_TOOL_PATTERNS,
      (tp.2.find? fun pd =>
        reSearch pd.1 (if tp.1 = "clang-diagnostic" then cd else cm)) = none) :
    matchSeg tools cd cm = [] := by
  unfold matchSeg
  apply List.filterMap_eq_nil_iff.mpr
  intro tp htp
  by_cases hc : tools.contains tp.1
  · simp only [if_pos hc, h tp htp, Option.map_none']
  · simp only [if_neg hc]

/-- C1: literal inertness.  A C-family line whose only directive-shaped
text sits inside a string literal (any content free of quote and
backslash) yields no finding for any requested tool set; likewise a char
literal; and a line comment following such a closed literal on the same
line yields exactly one finding. -/
theorem literal_inertness :
    (∀ (w : S) (tools : List String), 34 ∉ w → 92 ∉ w →
      (scanLineT Mode.cFamily tools false (str "s = \"" ++ w ++ str "\";")).1 = []) ∧
    (∀ (c : Nat) (tools : List String), ¬c = 39 → ¬c = 92 →
      (scanLineT Mode.cFamily tools false
        (str "char c = " ++ (39 :: c :: 39 :: []) ++ str ";")).1 = []) ∧
    (∀ w : S, 34 ∉ w → 92 ∉ w →
      (scanLineT Mode.cFamily allTools false
        (str "s = \"" ++ w ++ str "\"; // NOLINT")).1 = [("clang-tidy", "NOLINT")]) := by
  refine ⟨?_, ?_, ?_⟩
  · intro w tools h34 h92
    have hseg : segC false (str "s = \"" ++ w ++ str "\";") =
        ([115, 32, 61, 32, 32, 59], [], false) := by
      have e1 : str "s = \"" = 115 :: 32 :: 61 :: 32 :: 34 :: [] := by decide
      have e2 : str "\";" = 34 :: 59 :: [] := by decide
      rw [e1, e2]
      show segCGo CSt.code _ = _
      simp only [List.cons_append, List.nil_append]
      norm_num [segCGo_code_other, segCGo_code_quote,
        segCGo_instr_skip w (34 :: 59 :: []) h34 h92, segCGo_instr_close,
        segCGo_code_nil]
    show ((scanLineAnn Mode.cFamily tools false _).1.map fun e => (e.1, e.2.1)) = []
    show ((matchSeg tools (segC false _).1 (segC false _).2.1).map fun e => (e.1, e.2.1)) = []
    rw [hseg, matchSeg_eq_nil (by decide)]
    rfl
  · intro c tools h39 h92
    have hseg : segC false (str "char c = " ++ (39 :: c :: 39 :: []) ++ str ";") =
        ([99, 104, 97, 114, 32, 99, 32, 61, 32, 32, 59], [], false) := by
      have e1 : str "char c = " = 99 :: 104 :: 97 :: 114 :: 32 :: 99 :: 32 :: 61 :: 32 :: [] := by
        decide
      have e2 : str ";" = 59 :: [] := by decide
      rw [e1, e2]
      show segCGo CSt.code _ = _
      simp only [List.cons_append, List.nil_append]
      rw [segCGo_code_other 99 _ (by norm_num) (by norm_num) (by norm_num),
        segCGo_code_other 104 _ (by norm_num) (by norm_num) (by norm_num),
        segCGo_code_other 97 _ (by norm_num) (by norm_num) (by norm_num),
        segCGo_code_other 114 _ (by norm_num) (by norm_num) (by norm_num),
        segCGo_code_other 32 _ (by norm_num) (by norm_num) (by norm_num),
        segCGo_code_other 99 _ (by norm_num) (by norm_num) (by norm_num),
        segCGo_code_other 32 _ (by norm_num) (by norm_num) (by norm_num),
        segCGo_code_other 61 _ (by norm_num) (by norm_num) (by norm_num),
        segCGo_code_other 32 _ (by norm_num) (by norm_num) (by norm_num),
        segCGo_code_squote, segCGo_inchr_other c _ h92 h39, segCGo_inchr_close]
      norm_num [segCGo_code_other, segCGo_code_nil]
    show ((scanLineAnn Mode.cFamily tools false _).1.map fun e => (e.1, e.2.1)) = []
    show ((matchSeg tools (segC false _).1 (segC false _).2.1).map fun e => (e.1, e.2.1)) = []
    rw [hseg, matchSeg_eq_nil (by decide)]
    rfl
  · intro w h34 h92
    have hseg : segC false (str "s = \"" ++ w ++ str "\"; // NOLINT") =
        ([115, 32, 61, 32, 32, 59, 32], [32, 78, 79, 76, 73, 78, 84], false) := by
      have e1 : str "s = \"" = 115 :: 32 :: 61 :: 32 :: 34 :: [] := by decide
      have e2 : str "\"; // NOLINT" =
          34 :: 59 :: 32 :: 47 :: 47 :: 32 :: 78 :: 79 :: 76 :: 73 :: 78 :: 84 :: [] := by
        decide
      rw [e1, e2]
      show segCGo CSt.code _ = _
      simp only [List.cons_append, List.nil_append]
      norm_num [segCGo_code_other, segCGo_code_quote,
        segCGo_instr_skip w _ h34 h92, segCGo_instr_close,
        segCGo_code_lineComment]
    show ((scanLineAnn Mode.cFamily allTools false _).1.map fun e => (e.1, e.2.1)) =
      [("clang-tidy", "NOLINT")]
    show ((matchSeg allTools (segC false _).1 (segC false _).2.1).map
      fun e => (e.1, e.2.1)) = [("clang-tidy", "NOLINT")]
    rw [hseg]
    decide

/-- Witness for C1 with the directive-shaped string contents of the
repository's tests. -/
theorem literal_inertness_witness :
    (scanLineT Mode.cFamily allTools false
      (str "s = \"" ++ str "NOLINT" ++ str "\";")).1 = [] ∧
    (scanLineT Mode.cFamily ["clang-tidy"] false
      (str "char c = " ++ (39 :: 78 :: 39 :: []) ++ str ";")).1 = [] ∧
    (scanLineT Mode.cFamily allTools false
      (str "s = \"" ++ str "text" ++ str "\"; // NOLINT")).1 = [("clang-tidy", "NOLINT")] :=
  ⟨literal_inertness.1 (str "NOLINT") allTools (by decide) (by decide),
   literal_inertness.2.1 78 ["clang-tidy"] (by decide) (by decide),
   literal_inertness.2.2 (str "text") (by decide) (by decide)⟩

/-- Without a `#` in the line, the line-oriented segmenter produces no
comment text, from any state. -/
theorem segPyGo_no_hash : ∀ (n : Nat) (l : S), l.length ≤ n → 35 ∉ l →
    ∀ st, (segPyGo st l).2 = [] := by
  intro n
  induction n with
  | zero =>
    intro l hl _ st
    have : l = [] := List.eq_nil_of_length_eq_zero (Nat.le_zero.mp hl)
    subst this
    cases st <;> rfl
  | succ n ih =>
    intro l hl h35 st
    cases l with
    | nil => cases st <;> rfl
    | cons c rest =>
      have hlr : rest.length ≤ n := by simp [List.length_cons] at hl; omega
      have h35r : 35 ∉ rest := fun h => h35 (List.mem_cons_of_mem c h)
      cases st with
      | none =>
        have hc35 : ¬c = 35 := by
          intro h; subst h; exact h35 (List.mem_cons_self 35 rest)
        by_cases h34 : c = 34
        · subst h34
          rw [segPyGo_none_dquote]
          exact ih rest hlr h35r (some 34)
        · by_cases h39 : c = 39
          · subst h39
            rw [segPyGo_none_squote]
            exact ih rest hlr h35r (some 39)
          · rw [segPyGo_none_other c rest hc35 h34 h39]
            exact ih rest hlr h35r none
      | some q =>
        by_cases h92 : c = 92
        · subst h92
          cases rest with
          | nil => rw [segPyGo_some_esc_nil]
          | cons c2 r2 =>
            rw [segPyGo_some_esc]
            exact ih r2 (by simp [List.length_cons] at hl ⊢; omega)
              (fun h => h35r (List.mem_cons_of_mem c2 h)) (some q)
        · by_cases hq : c = q
          · subst hq
            rw [segPyGo_some_close c rest h92]
            exact ih rest hlr h35r none
          · rw [segPyGo_some_other q c rest h92 hq]
            exact ih rest hlr h35r (some q)

/-- Every character of the line-oriented segmenter's code text is a
character of the line or a boundary space. -/
theorem segPyGo_code_sub : ∀ (n : Nat) (l : S), l.length ≤ n →
    ∀ st x, x ∈ (segPyGo st l).1 → x ∈ l ∨ x = 32 := by
  intro n
  induction n with
  | zero =>
    intro l hl st x hx
    have : l = [] := List.eq_nil_of_length_eq_zero (Nat.le_zero.mp hl)
    subst this
    cases st <;> exact absurd hx (by simp [segPyGo])
  | succ n ih =>
    intro l hl st x hx
    cases l with
    | nil => cases st <;> exact absurd hx (by simp [segPyGo])
    | cons c rest =>
      have hlr : rest.length ≤ n := by simp [List.length_cons] at hl; omega
      cases st with
      | none =>
        by_cases hc35 : c = 35
        · subst hc35
          rw [segPyGo_none_hash] at hx
          exact absurd hx (by simp)
        · by_cases h34 : c = 34
          · subst h34
            rw [segPyGo_none_dquote] at hx
            rcases ih rest hlr (some 34) x hx with h | h
            · exact Or.inl (List.mem_cons_of_mem 34 h)
            · exact Or.inr h
          · by_cases h39 : c = 39
            · subst h39
              rw [segPyGo_none_squote] at hx
              rcases ih rest hlr (some 39) x hx with h | h
              · exact Or.inl (List.mem_cons_of_mem 39 h)
              · exact Or.inr h
            · rw [segPyGo_none_other c rest hc35 h34 h39] at hx
              rcases List.mem_cons.mp hx with h | h
              · exact Or.inl (h ▸ List.mem_cons_self c rest)
              · rcases ih rest hlr none x h with h2 | h2
                · exact Or.inl (List.mem_cons_of_mem c h2)
                · exact Or.inr h2
      | some q =>
        by_cases h92 : c = 92
        · subst h92
          cases rest with
          | nil =>
            rw [segPyGo_some_esc_nil] at hx
            exact absurd hx (by simp)
          | cons c2 r2 =>
            rw [segPyGo_some_esc] at hx
            rcases ih r2 (by simp [List.length_cons] at hl ⊢; omega) (some q) x hx
              with h | h
            · exact Or.inl (List.mem_cons_of_mem 92 (List.mem_cons_of_mem c2 h))
            · exact Or.inr h
        · by_cases hq : c = q
          · subst hq
            rw [segPyGo_some_close c rest h92] at hx
            rcases List.mem_cons.mp hx with h | h
            · exact Or.inr h
            · rcases ih rest hlr none x h with h2 | h2
              · exact Or.inl (List.mem_cons_of_mem c h2)
              · exact Or.inr h2
          · rw [segPyGo_some_other q c rest h92 hq] at hx
            rcases ih rest hlr (some q) x hx with h | h
            · exact Or.inl (List.mem_cons_of_mem c h)
            · exact Or.inr h

/-- Without a `/` in the line, the C-family segmenter started outside a
block comment produces no comment text. -/
theorem segCGo_no_slash : ∀ (n : Nat) (l : S), l.length ≤ n → 47 ∉ l →
    ∀ st, ¬st = CSt.blk → (segCGo st l).2.1 = [] := by
  intro n
  induction n with
  | zero =>
    intro l hl _ st hst
    have : l = [] := List.eq_nil_of_length_eq_zero (Nat.le_zero.mp hl)
    subst this
    cases st with
    | code => rfl
    | blk => exact absurd rfl hst
    | instr => rfl
    | inchr => rfl
  | succ n ih =>
    intro l hl h47 st hst
    cases l with
    | nil =>
      cases st with
      | code => rfl
      | blk => exact absurd rfl hst
      | instr => rfl
      | inchr => rfl
    | cons c rest =>
      have hlr : rest.length ≤ n := by simp [List.length_cons] at hl; omega
      have h47r : 47 ∉ rest := fun h => h47 (List.mem_cons_of_mem c h)
      cases st with
      | code =>
        have hc47 : ¬c = 47 := by
          intro h; subst h; exact h47 (List.mem_cons_self 47 rest)
        by_cases h34 : c = 34
        · subst h34
          rw [segCGo_code_quote]
          exact ih rest hlr h47r CSt.instr (by intro h; cases h)
        · by_cases h39 : c = 39
          · subst h39
            rw [segCGo_code_squote]
            exact ih rest hlr h47r CSt.inchr (by intro h; cases h)
          · rw [segCGo_code_other c rest hc47 h34 h39]
            exact ih rest hlr h47r CSt.code (by intro h; cases h)
      | blk => exact absurd rfl hst
      | instr =>
        by_cases h92 : c = 92
        · subst h92
          cases rest with
          | nil => rfl
          | cons c2 r2 =>
            rw [segCGo_instr_esc]
            exact ih r2 (by simp [List.length_cons] at hl ⊢; omega)
              (fun h => h47r (List.mem_cons_of_mem c2 h)) CSt.instr (by intro h; cases h)
        · by_cases h34 : c = 34
          · subst h34
            rw [segCGo_instr_close]
            exact ih rest hlr h47r CSt.code (by intro h; cases h)
          · rw [segCGo_instr_other c rest h92 h34]
            exact ih rest hlr h47r CSt.instr (by intro h; cases h)
      | inchr =>
        by_cases h92 : c = 92
        · subst h92
          cases rest with
          | nil => rfl
          | cons c2 r2 =>
            rw [segCGo_inchr_esc]
            exact ih r2 (by simp [List.length_cons] at hl ⊢; omega)
              (fun h => h47r (List.mem_cons_of_mem c2 h)) CSt.inchr (by intro h; cases h)
        · by_cases h39 : c = 39
          · subst h39
            rw [segCGo_inchr_close]
            exact ih rest hlr h47r CSt.code (by intro h; cases h)
          · rw [segCGo_inchr_other c rest h92 h39]
            exact ih rest hlr h47r CSt.inchr (by intro h; cases h)

/-- Every character of the C-family segmenter's code text is a character of
the line or a boundary space. -/
theorem segCGo_code_sub : ∀ (n : Nat) (l : S), l.length ≤ n →
    ∀ st x, x ∈ (segCGo st l).1 → x ∈ l ∨ x = 32 := by
  intro n
  induction n with
  | zero =>
    intro l hl st x hx
    have : l = [] := List.eq_nil_of_length_eq_zero (Nat.le_zero.mp hl)
    subst this
    cases st <;> exact absurd hx (by simp [segCGo])
  | succ n ih =>
    intro l hl st x hx
    cases l with
    | nil => cases st <;> exact absurd hx (by simp [segCGo])
    | cons c rest =>
      have hlr : rest.length ≤ n := by simp [List.length_cons] at hl; omega
      cases st with
      | code =>
        by_cases h47 : c = 47
        · subst h47
          cases rest with
          | nil =>
            rw [segCGo_code_slash_nil] at hx
            rcases List.mem_cons.mp hx with h | h
            · exact Or.inl (by rw [h]; exact List.mem_cons_self 47 [])
            · exact absurd h (by simp)
          | cons c2 r2 =>
            by_cases h2_47 : c2 = 47
            · subst h2_47
              rw [segCGo_code_lineComment] at hx
              exact absurd hx (by simp)
            · by_cases h2_42 : c2 = 42
              · subst h2_42
                rw [segCGo_code_blockOpen] at hx
                rcases ih r2 (by simp [List.length_cons] at hl ⊢; omega) CSt.blk x hx
                  with h | h
                · exact Or.inl
                    (List.mem_cons_of_mem 47 (List.mem_cons_of_mem 42 h))
                · exact Or.inr h
              · rw [segCGo_code_slash_other c2 r2 h2_47 h2_42] at hx
                rcases List.mem_cons.mp hx with h | h
                · exact Or.inl (h ▸ List.mem_cons_self 47 (c2 :: r2))
                · rcases ih (c2 :: r2) (by simpa using hlr) CSt.code x h with h2 | h2
                  · exact Or.inl (List.mem_cons_of_mem 47 h2)
                  · exact Or.inr h2
        · by_cases h34 : c = 34
          · subst h34
            rw [segCGo_code_quote] at hx
            rcases ih rest hlr CSt.instr x hx with h | h
            · exact Or.inl (List.mem_cons_of_mem 34 h)
            · exact Or.inr h
          · by_cases h39 : c = 39
            · subst h39
              rw [segCGo_code_squote] at hx
              rcases ih rest hlr CSt.inchr x hx with h | h
              · exact Or.inl (List.mem_cons_of_mem 39 h)
              · exact Or.inr h
            · rw [segCGo_code_other c rest h47 h34 h39] at hx
              rcases List.mem_cons.mp hx with h | h
              · exact Or.inl (h ▸ List.mem_cons_self c rest)
              · rcases ih rest hlr CSt.code x h with h2 | h2
                · exact Or.inl (List.mem_cons_of_mem c h2)
                · exact Or.inr h2
      | blk =>
        by_cases h42 : c = 42
        · subst h42
          cases rest with
          | nil =>
            rw [segCGo_blk_star_nil] at hx
            exact absurd hx (by simp)
          | cons c2 r2 =>
            by_cases h2_47 : c2 = 47
            · subst h2_47
              rw [segCGo_blk_close] at hx
              rcases List.mem_cons.mp hx with h | h
              · exact Or.inr h
              · rcases ih r2 (by simp [List.length_cons] at hl ⊢; omega) CSt.code x h
                  with h2 | h2
                · exact Or.inl
                    (List.mem_cons_of_mem 42 (List.mem_cons_of_mem 47 h2))
                · exact Or.inr h2
            · rw [segCGo_blk_star_other c2 r2 h2_47] at hx
              rcases ih (c2 :: r2) (by simpa using hlr) CSt.blk x hx with h | h
              · exact Or.inl (List.mem_cons_of_mem 42 h)
              · exact Or.inr h
        · rw [segCGo_blk_other c rest h42] at hx
          rcases ih rest hlr CSt.blk x hx with h | h
          · exact Or.inl (List.mem_cons_of_mem c h)
          · exact Or.inr h
      | instr =>
        by_cases h92 : c = 92
        · subst h92
          cases rest with
          | nil =>
            rw [segCGo_instr_esc_nil] at hx
            exact absurd hx (by simp)
          | cons c2 r2 =>
            rw [segCGo_instr_esc] at hx
            rcases ih r2 (by simp [List.length_cons] at hl ⊢; omega) CSt.instr x hx
              with h | h
            · exact Or.inl (List.mem_cons_of_mem 92 (List.mem_cons_of_mem c2 h))
            · exact Or.inr h
        · by_cases h34 : c = 34
          · subst h34
            rw [segCGo_instr_close] at hx
            rcases List.mem_cons.mp hx with h | h
            · exact Or.inr h
            · rcases ih rest hlr CSt.code x h with h2 | h2
              · exact Or.inl (List.mem_cons_of_mem 34 h2)
              · exact Or.inr h2
          · rw [segCGo_instr_other c rest h92 h34] at hx
            rcases ih rest hlr CSt.instr x hx with h | h
            · exact Or.inl (List.mem_cons_of_mem c h)
            · exact Or.inr h
      | inchr =>
        by_cases h92 : c = 92
        · subst h92
          cases rest with
          | nil =>
            rw [segCGo_inchr_esc_nil] at hx
            exact absurd hx (by simp)
          | cons c2 r2 =>
            rw [segCGo_inchr_esc] at hx
            rcases ih r2 (by simp [List.length_cons] at hl ⊢; omega) CSt.inchr x hx
              with h | h
            · exact Or.inl (List.mem_cons_of_mem 92 (List.mem_cons_of_mem c2 h))
            · exact Or.inr h
        · by_cases h39 : c = 39
          · subst h39
            rw [segCGo_inchr_close] at hx
            rcases List.mem_cons.mp hx with h | h
            · exact Or.inr h
            · rcases ih rest hlr CSt.code x h with h2 | h2
              · exact Or.inl (List.mem_cons_of_mem 39 h2)
              · exact Or.inr h2
          · rw [segCGo_inchr_other c rest h92 h39] at hx
            rcases ih rest hlr CSt.inchr x hx with h | h
            · exact Or.inl (List.mem_cons_of_mem c h)
            · exact Or.inr h

/-- A pattern opening with a literal can only match a text containing the
literal's first character (up to case folding). -/
theorem reSearch_lit_head {d : Nat} {L : S} {ts : List Tok} {s : S}
    (h : reSearch (Tok.lit (d :: L) :: ts) s = true) :
    ∃ x ∈ s, lcN x = lcN d := by
  rcases reSearch_suffix h with ⟨t, hts, hm⟩
  rw [matchToks] at hm
  cases hml : matchLit (d :: L) t with
  | none => rw [hml] at hm; cases hm
  | some r =>
    cases t with
    | nil => rw [matchLit] at hml; cases hml
    | cons x t2 =>
      rw [matchLit] at hml
      by_cases hc : lcN x = lcN d
      · exact ⟨x, hts.subset (List.mem_cons_self x t2), hc⟩
      · rw [if_neg hc] at hml; cases hml

/-- A case-folded character below the lower-case letters is itself. -/
theorem lcN_eq_of_lt {x v : Nat} (hv : v < 97) (hx : lcN x = v) : x = v := by
  unfold lcN at hx
  split_ifs at hx <;> omega

/-- If the code text contains no `#` and the comment text is empty, the
line matcher yields nothing. -/
theorem matchSeg_no_hash (tools : List String) (cd : S) (h35 : 35 ∉ cd) :
    matchSeg tools cd [] = [] := by
  apply matchSeg_eq_nil
  intro tp htp
  rcases (by simpa [ALL_TOOL_PATTERNS] using htp :
      tp = ("yamllint", YAMLLINT_PATTERNS) ∨ tp = ("pylint", PYLINT_PATTERNS) ∨
        tp = ("mypy", MYPY_PATTERNS) ∨ tp = ("clang-tidy", CLANG_TIDY_PATTERNS) ∨
        tp = ("clang-format", CLANG_FORMAT_PATTERNS) ∨
        tp = ("clang-diagnostic", CLANG_DIAG_PATTERNS))
    with rfl | rfl | rfl | rfl | rfl | rfl
  · have e : (if (("yamllint" : String) = "clang-diagnostic") then cd else ([] : S)) = [] :=
      if_neg (by decide)
    simp only [e]
    decide
  · have e : (if (("pylint" : String) = "clang-diagnostic") then cd else ([] : S)) = [] :=
      if_neg (by decide)
    simp only [e]
    decide
  · have e : (if (("mypy" : String) = "clang-diagnostic") then cd else ([] : S)) = [] :=
      if_neg (by decide)
    simp only [e]
    decide
  · have e : (if (("clang-tidy" : String) = "clang-diagnostic") then cd else ([] : S)) = [] :=
      if_neg (by decide)
    simp only [e]
    decide
  · have e : (if (("clang-format" : String) = "clang-diagnostic") then cd else ([] : S)) = [] :=
      if_neg (by decide)
    simp only [e]
    decide
  · have e : (if (("clang-diagnostic" : String) = "clang-diagnostic") then cd else ([] : S)) = cd :=
      if_pos rfl
    simp only [e]
    apply List.find?_eq_none.mpr
    intro pd hpd
    rcases (by simpa [CLANG_DIAG_PATTERNS] using hpd :
      pd = (clangDiagPat, "#pragma clang diagnostic ignored")) with rfl
    intro hr
    have hp : clangDiagPat =
        Tok.lit (35 :: str "pragma") :: [Tok.wsPlus, Tok.lit (str "clang"), Tok.wsPlus,
          Tok.lit (str "diagnostic"), Tok.wsPlus, Tok.lit (str "ignored")] := by decide
    rw [hp] at hr
    rcases reSearch_lit_head hr with ⟨x, hxs, hx⟩
    have hx35 : x = 35 := lcN_eq_of_lt (by norm_num) (by simpa using hx)
    exact h35 (hx35 ▸ hxs)

/-- C3: a line without any comment marker reachable from code context —
no `#` and no `/` anywhere — yields zero findings for every requested
tool set, in both segmenter modes, even when it contains
directive-shaped text. -/
theorem no_comment_marker_no_findings (tools : List String) (line : S)
    (h35 : 35 ∉ line) (h47 : 47 ∉ line) :
    (scanLineT Mode.lineOriented tools false line).1 = [] ∧
    (scanLineT Mode.cFamily tools false line).1 = [] := by
  constructor
  · have hcm : (segPy line).2 = [] :=
      segPyGo_no_hash line.length line (Nat.le_refl _) h35 none
    have hcd : 35 ∉ (segPy line).1 := by
      intro hx
      rcases segPyGo_code_sub line.length line (Nat.le_refl _) none 35 hx with h | h
      · exact h35 h
      · exact absurd h (by norm_num)
    show ((matchSeg tools (segPy line).1 (segPy line).2).map fun e => (e.1, e.2.1)) = []
    rw [hcm, matchSeg_no_hash tools _ hcd]
    rfl
  · have hcm : (segCGo CSt.code line).2.1 = [] :=
      segCGo_no_slash line.length line (Nat.le_refl _) h47 CSt.code (by intro h; cases h)
    have hcd : 35 ∉ (segCGo CSt.code line).1 := by
      intro hx
      rcases segCGo_code_sub line.length line (Nat.le_refl _) CSt.code 35 hx with h | h
      · exact h35 h
      · exact absurd h (by norm_num)
    show ((matchSeg tools (segCGo CSt.code line).1 (segCGo CSt.code line).2.1).map
      fun e => (e.1, e.2.1)) = []
    rw [hcm, matchSeg_no_hash tools _ hcd]
    rfl

/-- Witness for C3: a line carrying directive-shaped text but no comment
marker yields nothing in either mode. -/
theorem no_comment_marker_no_findings_witness :
    (scanLineT Mode.lineOriented allTools false (str "x = pylint: disable")).1 = [] ∧
    (scanLineT Mode.cFamily allTools false (str "x = pylint: disable")).1 = [] :=
  no_comment_marker_no_findings allTools (str "x = pylint: disable")
    (by decide) (by decide)

/-- Upper-casing then case-folding is case-folding. -/
theorem lcN_ucN (c : Nat) : lcN (ucN c) = lcN c := by
  unfold lcN ucN
  split_ifs <;> omega

/-- Case-folding is idempotent. -/
theorem lcN_lcN (c : Nat) : lcN (lcN c) = lcN c := by
  unfold lcN
  split_ifs <;> omega

/-- Characters below the upper-case letters are equal iff their case
foldings are. -/
theorem eq_low_iff {a b v : Nat} (hv : v < 65) (h : lcN a = lcN b) :
    (a = v) ↔ (b = v) := by
  unfold lcN at h
  split_ifs at h <;> omega

/-- A case-fold-preserving character map preserves the whitespace class. -/
theorem wsN_map {f : Nat → Nat} (hf : ∀ c, lcN (f c) = lcN c) (c : Nat) :
    wsN (f c) = wsN c := by
  unfold wsN
  rw [show decide (f c = 32) = decide (c = 32) from
      decide_eq_decide.mpr (eq_low_iff (by norm_num) (hf c)),
    show decide (f c = 9) = decide (c = 9) from
      decide_eq_decide.mpr (eq_low_iff (by norm_num) (hf c)),
    show decide (f c = 10) = decide (c = 10) from
      decide_eq_decide.mpr (eq_low_iff (by norm_num) (hf c)),
    show decide (f c = 13) = decide (c = 13) from
      decide_eq_decide.mpr (eq_low_iff (by norm_num) (hf c)),
    show decide (f c = 11) = decide (c = 11) from
      decide_eq_decide.mpr (eq_low_iff (by norm_num) (hf c)),
    show decide (f c = 12) = decide (c = 12) from
      decide_eq_decide.mpr (eq_low_iff (by norm_num) (hf c))]

/-- A case-fold-preserving character map does not affect literal
matching. -/
theorem matchLit_map {f : Nat → Nat} (hf : ∀ c, lcN (f c) = lcN c) :
    ∀ (L s : S), matchLit L (s.map f) = (matchLit L s).map (List.map f) := by
  intro L
  induction L with
  | nil => intro s; rfl
  | cons p ps ih =>
    intro s
    cases s with
    | nil => rfl
    | cons c cs =>
      rw [List.map_cons, matchLit, matchLit, hf c]
      by_cases hc : lcN c = lcN p
      · rw [if_pos hc, if_pos hc, ih]
      · rw [if_neg hc, if_neg hc]
        rfl

/-- A case-fold-preserving character map does not affect whitespace
stripping (up to the map). -/
theorem dropWs_map {f : Nat → Nat} (hf : ∀ c, lcN (f c) = lcN c) :
    ∀ s : S, dropWs (s.map f) = (dropWs s).map f := by
  intro s
  induction s with
  | nil => rfl
  | cons c r ih =>
    rw [List.map_cons, dropWs, dropWs, wsN_map hf c]
    by_cases hc : wsN c
    · rw [if_pos hc, if_pos hc, ih]
    · rw [if_neg hc, if_neg hc, List.map_cons]

/-- A case-fold-preserving character map does not affect token-sequence
matching. -/
theorem matchToks_map {f : Nat → Nat} (hf : ∀ c, lcN (f c) = lcN c) :
    ∀ (toks : List Tok) (s : S), matchToks toks (s.map f) = matchToks toks s := by
  intro toks
  induction toks with
  | nil => intro s; rfl
  | cons tk ts ih =>
    intro s
    cases tk with
    | lit l =>
      rw [matchToks, matchToks, matchLit_map hf]
      cases matchLit l s with
      | none => rfl
      | some r => exact ih r
    | wsStar =>
      rw [matchToks, matchToks, dropWs_map hf]
      exact ih (dropWs s)
    | wsPlus =>
      cases s with
      | nil => rfl
      | cons c r =>
        rw [List.map_cons, matchToks, matchToks, wsN_map hf c, dropWs_map hf]
        rw [ih (dropWs r)]
    | notLit l =>
      rw [matchToks, matchToks]
      have hp : isPrefCI l (s.map f) = isPrefCI l s := by
        rw [isPrefCI, isPrefCI, matchLit_map hf]
        cases matchLit l s <;> rfl
      rw [hp, ih s]

/-- A case-fold-preserving character map does not affect searching. -/
theorem reSearch_map {f : Nat → Nat} (hf : ∀ c, lcN (f c) = lcN c)
    (p : List Tok) : ∀ s : S, reSearch p (s.map f) = reSearch p s := by
  intro s
  induction s with
  | nil => rfl
  | cons c r ih =>
    rw [List.map_cons, reSearch, reSearch, ih]
    rw [show matchToks p (f c :: List.map f r) = matchToks p ((c :: r).map f) from rfl,
      matchToks_map hf]

/-- A case-fold-preserving character map does not affect `scan_line`. -/
theorem scan_line_map {f : Nat → Nat} (hf : ∀ c, lcN (f c) = lcN c) (line : S) :
    scan_line (line.map f) = scan_line line := by
  unfold scan_line
  simp only [reSearch_map hf]

/-- Leading spaces are stripped by `dropWs`. -/
theorem dropWs_replicate (n : Nat) (b : S) :
    dropWs (List.replicate n 32 ++ b) = dropWs b := by
  induction n with
  | zero => rw [List.replicate_zero, List.nil_append]
  | succ n ih => rw [List.replicate_succ, List.cons_append, dropWs, if_pos (by decide), ih]

/-- A pattern opening with a non-space literal cannot match at a space. -/
theorem matchToks_not_space {d : Nat} (L : S) (ts : List Tok) (s : S)
    (hd : ¬lcN d = 32) :
    matchToks (Tok.lit (d :: L) :: ts) (32 :: s) = false := by
  rw [matchToks, matchLit, if_neg (by
    intro h
    exact hd (by
      have h32 : lcN 32 = 32 := by decide
      rw [h32] at h
      exact h.symm))]

/-- A pattern opening with a non-space literal searches across a run of
spaces unchanged. -/
theorem reSearch_replicate {d : Nat} {L : S} {ts : List Tok} (hd : ¬lcN d = 32)
    (n : Nat) (b : S) :
    reSearch (Tok.lit (d :: L) :: ts) (List.replicate n 32 ++ b) =
      reSearch (Tok.lit (d :: L) :: ts) b := by
  induction n with
  | zero => rw [List.replicate_zero, List.nil_append]
  | succ n ih =>
    rw [List.replicate_succ, List.cons_append, reSearch, matchToks_not_space L ts _ hd,
      ih, Bool.false_or]

/-- Widening the whitespace run after `pylint:` to any number of spaces
leaves the reported finding unchanged. -/
theorem scan_line_pylint_ws_gap (n : Nat) :
    scan_line (str "pylint:" ++ List.replicate n 32 ++ str "disable=foo") =
      [("pylint", "pylint: disable")] := by
  have e1 : str "pylint:" = [112, 121, 108, 105, 110, 116, 58] := by decide
  have e2 : str "disable=foo" = [100, 105, 115, 97, 98, 108, 101, 61, 102, 111, 111] := by
    decide
  have p1 : yamLinePat = [Tok.lit [121, 97, 109, 108, 108, 105, 110, 116], Tok.wsPlus,
      Tok.lit [100, 105, 115, 97, 98, 108, 101, 45, 108, 105, 110, 101]] := by decide
  have p2 : yamFilePat = [Tok.lit [121, 97, 109, 108, 108, 105, 110, 116], Tok.wsPlus,
      Tok.lit [100, 105, 115, 97, 98, 108, 101, 45, 102, 105, 108, 101]] := by decide
  have p3 : yamBarePat = [Tok.lit [121, 97, 109, 108, 108, 105, 110, 116], Tok.wsPlus,
      Tok.lit [100, 105, 115, 97, 98, 108, 101], Tok.notLit [45]] := by decide
  have p4 : pylNextPat = [Tok.lit [112, 121, 108, 105, 110, 116, 58], Tok.wsStar,
      Tok.lit [100, 105, 115, 97, 98, 108, 101, 45, 110, 101, 120, 116]] := by decide
  have p5 : pylLinePat = [Tok.lit [112, 121, 108, 105, 110, 116, 58], Tok.wsStar,
      Tok.lit [100, 105, 115, 97, 98, 108, 101, 45, 108, 105, 110, 101]] := by decide
  have p6 : pylSkipPat = [Tok.lit [112, 121, 108, 105, 110, 116, 58], Tok.wsStar,
      Tok.lit [115, 107, 105, 112, 45, 102, 105, 108, 101]] := by decide
  have p7 : pylBarePat = [Tok.lit [112, 121, 108, 105, 110, 116, 58], Tok.wsStar,
      Tok.lit [100, 105, 115, 97, 98, 108, 101], Tok.notLit [45]] := by decide
  have p8 : mypyTiPat = [Tok.lit [116, 121, 112, 101, 58], Tok.wsStar,
      Tok.lit [105, 103, 110, 111, 114, 101]] := by decide
  have p9 : mypyIePat = [Tok.lit [109, 121, 112, 121, 58], Tok.wsStar,
      Tok.lit [105, 103, 110, 111, 114, 101, 45, 101, 114, 114, 111, 114, 115]] := by decide
  have hsy : ∀ (L : S) (ts : List Tok) (b : S),
      reSearch (Tok.lit (121 :: L) :: ts) (List.replicate n 32 ++ b) =
        reSearch (Tok.lit (121 :: L) :: ts) b :=
    fun L ts b => reSearch_replicate (by decide) n b
  have hsp : ∀ (L : S) (ts : List Tok) (b : S),
      reSearch (Tok.lit (112 :: L) :: ts) (List.replicate n 32 ++ b) =
        reSearch (Tok.lit (112 :: L) :: ts) b :=
    fun L ts b => reSearch_replicate (by decide) n b
  have hst : ∀ (L : S) (ts : List Tok) (b : S),
      reSearch (Tok.lit (116 :: L) :: ts) (List.replicate n 32 ++ b) =
        reSearch (Tok.lit (116 :: L) :: ts) b :=
    fun L ts b => reSearch_replicate (by decide) n b
  have hsm : ∀ (L : S) (ts : List Tok) (b : S),
      reSearch (Tok.lit (109 :: L) :: ts) (List.replicate n 32 ++ b) =
        reSearch (Tok.lit (109 :: L) :: ts) b :=
    fun L ts b => reSearch_replicate (by decide) n b
  rw [e1, e2]
  simp [scan_line, ALL_PATTERNS, YAMLLINT_PATTERNS, PYLINT_PATTERNS, MYPY_PATTERNS,
    p1, p2, p3, p4, p5, p6, p7, p8, p9, reSearch, matchToks, matchLit, lcN, isPrefCI,
    dropWs, wsN, hsy, hsp, hst, hsm, dropWs_replicate, List.cons_append,
    List.append_assoc, List.find?]

/-- Widening the whitespace run between `yamllint` and `disable` to any
positive number of spaces leaves the reported finding unchanged. -/
theorem scan_line_yamllint_ws_gap (n : Nat) :
    scan_line (str "yamllint" ++ List.replicate (n + 1) 32 ++ str "disable") =
      [("yamllint", "yamllint disable")] := by
  have e1 : str "yamllint" = [121, 97, 109, 108, 108, 105, 110, 116] := by decide
  have e2 : str "disable" = [100, 105, 115, 97, 98, 108, 101] := by decide
  have p1 : yamLinePat = [Tok.lit [121, 97, 109, 108, 108, 105, 110, 116], Tok.wsPlus,
      Tok.lit [100, 105, 115, 97, 98, 108, 101, 45, 108, 105, 110, 101]] := by decide
  have p2 : yamFilePat = [Tok.lit [121, 97, 109, 108, 108, 105, 110, 116], Tok.wsPlus,
      Tok.lit [100, 105, 115, 97, 98, 108, 101, 45, 102, 105, 108, 101]] := by decide
  have p3 : yamBarePat = [Tok.lit [121, 97, 109, 108, 108, 105, 110, 116], Tok.wsPlus,
      Tok.lit [100, 105, 115, 97, 98, 108, 101], Tok.notLit [45]] := by decide
  have p4 : pylNextPat = [Tok.lit [112, 121, 108, 105, 110, 116, 58], Tok.wsStar,
      Tok.lit [100, 105, 115, 97, 98, 108, 101, 45, 110, 101, 120, 116]] := by decide
  have p5 : pylLinePat = [Tok.lit [112, 121, 108, 105, 110, 116, 58], Tok.wsStar,
      Tok.lit [100, 105, 115, 97, 98, 108, 101, 45, 108, 105, 110, 101]] := by decide
  have p6 : pylSkipPat = [Tok.lit [112, 121, 108, 105, 110, 116, 58], Tok.wsStar,
      Tok.lit [115, 107, 105, 112, 45, 102, 105, 108, 101]] := by decide
  have p7 : pylBarePat = [Tok.lit [112, 121, 108, 105, 110, 116, 58], Tok.wsStar,
      Tok.lit [100, 105, 115, 97, 98, 108, 101], Tok.notLit [45]] := by decide
  have p8 : mypyTiPat = [Tok.lit [116, 121, 112, 101, 58], Tok.wsStar,
      Tok.lit [105, 103, 110, 111, 114, 101]] := by decide
  have p9 : mypyIePat = [Tok.lit [109, 121, 112, 121, 58], Tok.wsStar,
      Tok.lit [105, 103, 110, 111, 114, 101, 45, 101, 114, 114, 111, 114, 115]] := by decide
  have hsy : ∀ (L : S) (ts : List Tok) (b : S),
      reSearch (Tok.lit (121 :: L) :: ts) (List.replicate n 32 ++ b) =
        reSearch (Tok.lit (121 :: L) :: ts) b :=
    fun L ts b => reSearch_replicate (by decide) n b
  have hsp : ∀ (L : S) (ts : List Tok) (b : S),
      reSearch (Tok.lit (112 :: L) :: ts) (List.replicate n 32 ++ b) =
        reSearch (Tok.lit (112 :: L) :: ts) b :=
    fun L ts b => reSearch_replicate (by decide) n b
  have hst : ∀ (L : S) (ts : List Tok) (b : S),
      reSearch (Tok.lit (116 :: L) :: ts) (List.replicate n 32 ++ b) =
        reSearch (Tok.lit (116 :: L) :: ts) b :=
    fun L ts b => reSearch_replicate (by decide) n b
  have hsm : ∀ (L : S) (ts : List Tok) (b : S),
      reSearch (Tok.lit (109 :: L) :: ts) (List.replicate n 32 ++ b) =
        reSearch (Tok.lit (109 :: L) :: ts) b :=
    fun L ts b => reSearch_replicate (by decide) n b
  rw [e1, e2]
  simp [scan_line, ALL_PATTERNS, YAMLLINT_PATTERNS, PYLINT_PATTERNS, MYPY_PATTERNS,
    p1, p2, p3, p4, p5, p6, p7, p8, p9, reSearch, matchToks, matchLit, lcN, isPrefCI,
    dropWs, wsN, hsy, hsp, hst, hsm, dropWs_replicate, List.cons_append,
    List.append_assoc, List.replicate_succ, List.find?]

/-- C8: directive matching is case-insensitive and whitespace-tolerant:
upper-casing or lower-casing every character of a line leaves the
`scan_line` result unchanged, and widening the whitespace run around a
directive's separator (after `pylint:`, or between `yamllint` and
`disable`) leaves the reported `(tool, label)` unchanged. -/
theorem case_and_whitespace_tolerance :
    (∀ line : S, scan_line (line.map ucN) = scan_line line) ∧
    (∀ line : S, scan_line (line.map lcN) = scan_line line) ∧
    (∀ n : Nat, scan_line (str "pylint:" ++ List.replicate n 32 ++ str "disable=foo") =
      [("pylint", "pylint: disable")]) ∧
    (∀ n : Nat, scan_line (str "yamllint" ++ List.replicate (n + 1) 32 ++ str "disable") =
      [("yamllint", "yamllint disable")]) :=
  ⟨fun line => scan_line_map lcN_ucN line,
   fun line => scan_line_map lcN_lcN line,
   scan_line_pylint_ws_gap,
   scan_line_yamllint_ws_gap⟩

end ANILD
